import Mathlib

/-!
The control utility of xl2tpd: request encoding and control-channel exchange.

A shallow embedding of `xl2tpd-control.c`.

* A C string is the list of its characters before the terminating NUL.
* The `char buf[1024]` scratch arrays are bounded: a `sprintf` whose output and
  terminator do not fit has no defined behaviour, which the embedding reports
  as `none`.
* Calls into the operating system and the C library with a visible effect are
  recorded as a list of `Event`s, in program order; what the environment
  answers (`send`, `recv`, the bytes found in an uninitialised array) is an
  explicit argument.
* The constants of `l2tp.h`, which is not part of the sources, are the fields
  of `Header`.
-/

namespace Xl2tpd

/-! ## C strings and scratch buffers -/

/-- The byte that terminates a C string. -/
def NUL : Char := Char.ofNat 0

/-- The characters of a C string, terminator excluded. -/
abbrev CStr := List Char

/-- The C string held by a character array: its bytes before the first NUL
(what `strlen` measures and what `%s` prints). -/
def cstr (bytes : List Char) : CStr := bytes.takeWhile (fun c => c != NUL)

/-- The size of the scratch arrays, `char buf[1024]`. -/
def BUF_SIZE : Nat := 1024

/-- The call `sprintf (buf, ...)` (also `vsprintf`) on a `char buf[1024]`: the
formatted output `out` and a terminating NUL are stored from `buf[0]` on,
replacing what the array held as a C string. The result is the C string the
array holds afterwards, or `none` when output and terminator overrun the
array. -/
def sprintf (out : List Char) : Option CStr :=
  if out.length + 1 ≤ BUF_SIZE then some (cstr out) else none

/-- The call `strstr (s, "=")`: the offset of the first `=` of `s`, or `none`
for the null pointer. -/
def strstr_eq (s : CStr) : Option Nat :=
  if s.indexOf '=' < s.length then some (s.indexOf '=') else none

/-! ## Effects -/

/-- An observable call of the program, with the arguments that matter. -/
inductive Event where
  /-- The call `socket (AF_UNIX, SOCK_STREAM, 0)`. -/
  | socket : Event
  /-- The call `connect (fd, "socket1")`. -/
  | connect (fd : Int) : Event
  /-- The call `send (fd, bytes, strlen (bytes), 0)`. -/
  | send (fd : Int) (bytes : List Char) : Event
  /-- The call `recv (fd, response_buf, CONTROL_PIPE_MESSAGE_SIZE, 0)`. -/
  | recv (fd : Int) : Event
  /-- The call `close (fd)`. -/
  | close (fd : Int) : Event
  /-- Text written to standard output by `printf`. -/
  | stdout (text : List Char) : Event
  /-- Text written to standard error by `vfprintf (stderr, ...)`. -/
  | stderr (text : List Char) : Event
  /-- The call `perror ("send")`. -/
  | perror : Event
  /-- The banner printed by `usage ()`. -/
  | usage : Event
  /-- The text `help ()` prints after the banner. -/
  | help : Event
  deriving DecidableEq, Repr

/-- The macro `ERROR_LEVEL`. -/
def ERROR_LEVEL : Nat := 1

/-- The macro `DEBUG_LEVEL`. -/
def DEBUG_LEVEL : Nat := 2

/-- The function `print_error`: the message goes to standard error unless its
level is above `log_level`. -/
def print_error (log_level level : Nat) (text : List Char) : List Event :=
  if level > log_level then [] else [Event.stderr text]

/-- The function `write_request`, called with a format and arguments whose
formatted output is `out`: the output is built in a local `char buf[1024]`,
the C string in it is handed to `send`, whose answer is `send_res`, and the
function returns 0 whatever `send` answered. -/
def write_request (send_res : Int) (socket_fd : Int) (out : List Char) :
    Option (Int × List Event) :=
  match sprintf out with
  | none => none
  | some buf =>
    if send_res < 0 then
      some (0, [Event.send socket_fd buf,
                Event.stdout "send() failed\n".toList, Event.perror])
    else
      some (0, [Event.send socket_fd buf])

/-! ## The add/modify encoder -/

/-- The body of the `for` loop of `command_add`, run over the remaining
tokens `optv[i..]`, on the pair of `buf` (as a C string) and `wait_key`. Every
`sprintf` of the loop has `buf` itself as its destination. -/
def add_loop : List CStr → CStr × Bool → Option (CStr × Bool)
  | [], st => some st
  | tok :: rest, (_, wait_key) =>
    match sprintf tok with
    | none => none
    | some buf =>
      if wait_key then
        match strstr_eq tok with
        | some eqv =>
          if eqv + 1 ≠ tok.length then
            match sprintf [';'] with
            | none => none
            | some buf1 => add_loop rest (buf1, true)
          else
            add_loop rest (buf, false)
        | none =>
          match sprintf [' '] with
          | none => none
          | some buf1 => add_loop rest (buf1, true)
      else
        match sprintf [';'] with
        | none => none
        | some buf1 => add_loop rest (buf1, true)

/-- The function `command_add`; `optv` is the array of `optc` option tokens,
`tunnel` is `none` for the null pointer. The result is the returned `int` and
the events of the call. -/
def command_add (log_level : Nat) (send_res : Int) (socket_fd : Int)
    (tunnel : Option CStr) (optv : List CStr) (reqopt : Char) :
    Option (Int × List Event) :=
  if optv.length ≤ 0 then
    some (-1, print_error log_level ERROR_LEVEL
      "error: tunnel configuration expected\n".toList)
  else
    match tunnel with
    | none => none
    | some t =>
      match sprintf (reqopt :: ' ' :: t ++ [' ']) with
      | none => none
      | some buf0 =>
        match add_loop optv (buf0, true) with
        | none => none
        | some (buf, _) =>
          match write_request send_res socket_fd buf with
          | none => none
          | some (_, evs) => some (0, evs)

/-- The function `command_add_lac`. -/
def command_add_lac (reqopt : Char) (log_level : Nat) (send_res : Int)
    (socket_fd : Int) (tunnel : Option CStr) (optv : List CStr) :
    Option (Int × List Event) :=
  command_add log_level send_res socket_fd tunnel optv reqopt

/-- The function `command_add_lns`. -/
def command_add_lns (reqopt : Char) (log_level : Nat) (send_res : Int)
    (socket_fd : Int) (tunnel : Option CStr) (optv : List CStr) :
    Option (Int × List Event) :=
  command_add log_level send_res socket_fd tunnel optv reqopt

/-! ## The fixed commands -/

/-- The call `write_request (socket_fd, "%c %s", tag, tunnel)`, the whole body
of every fixed-command handler. Printing the null pointer with `%s` has no
defined behaviour. -/
def write_tag_tunnel (tag : Char) (send_res : Int) (socket_fd : Int)
    (tunnel : Option CStr) : Option (Int × List Event) :=
  match tunnel with
  | none => none
  | some t => write_request send_res socket_fd (tag :: ' ' :: t)

/-- The function `command_connect_lac`: its body is commented out, it sends
nothing and returns 0. -/
def command_connect_lac (_log_level : Nat) (_send_res : Int) (_socket_fd : Int)
    (_tunnel : Option CStr) (_optv : List CStr) : Option (Int × List Event) :=
  some (0, [])

/-- The function `command_disconnect_lac`, for the tag
`CONTROL_PIPE_REQ_LAC_DISCONNECT`. -/
def command_disconnect_lac (tag : Char) (_log_level : Nat) (send_res : Int)
    (socket_fd : Int) (tunnel : Option CStr) (_optv : List CStr) :
    Option (Int × List Event) :=
  write_tag_tunnel tag send_res socket_fd tunnel

/-- The function `command_remove_lac`, for the tag
`CONTROL_PIPE_REQ_LAC_REMOVE`. -/
def command_remove_lac (tag : Char) (_log_level : Nat) (send_res : Int)
    (socket_fd : Int) (tunnel : Option CStr) (_optv : List CStr) :
    Option (Int × List Event) :=
  write_tag_tunnel tag send_res socket_fd tunnel

/-- The function `command_status_lns`, for the tag
`CONTROL_PIPE_REQ_LNS_STATUS`. -/
def command_status_lns (tag : Char) (_log_level : Nat) (send_res : Int)
    (socket_fd : Int) (tunnel : Option CStr) (_optv : List CStr) :
    Option (Int × List Event) :=
  write_tag_tunnel tag send_res socket_fd tunnel

/-- The function `command_status_lac`, for the tag
`CONTROL_PIPE_REQ_LAC_STATUS`. -/
def command_status_lac (tag : Char) (_log_level : Nat) (send_res : Int)
    (socket_fd : Int) (tunnel : Option CStr) (_optv : List CStr) :
    Option (Int × List Event) :=
  write_tag_tunnel tag send_res socket_fd tunnel

/-- The function `command_available`, for the tag
`CONTROL_PIPE_REQ_AVAILABLE`. -/
def command_available (tag : Char) (_log_level : Nat) (send_res : Int)
    (socket_fd : Int) (tunnel : Option CStr) (_optv : List CStr) :
    Option (Int × List Event) :=
  write_tag_tunnel tag send_res socket_fd tunnel

/-- The function `command_remove_lns`, for the tag
`CONTROL_PIPE_REQ_LNS_REMOVE`. -/
def command_remove_lns (tag : Char) (_log_level : Nat) (send_res : Int)
    (socket_fd : Int) (tunnel : Option CStr) (_optv : List CStr) :
    Option (Int × List Event) :=
  write_tag_tunnel tag send_res socket_fd tunnel

/-! ## The command table -/

/-- The constants `xl2tpd-control.c` takes from `l2tp.h`. -/
structure Header where
  CONTROL_PIPE : CStr
  CONTROL_PIPE_MESSAGE_SIZE : Nat
  CONTROL_PIPE_REQ_LAC_ADD_MODIFY : Char
  CONTROL_PIPE_REQ_LAC_DISCONNECT : Char
  CONTROL_PIPE_REQ_LAC_REMOVE : Char
  CONTROL_PIPE_REQ_LNS_ADD_MODIFY : Char
  CONTROL_PIPE_REQ_LNS_STATUS : Char
  CONTROL_PIPE_REQ_LAC_STATUS : Char
  CONTROL_PIPE_REQ_AVAILABLE : Char
  CONTROL_PIPE_REQ_LNS_REMOVE : Char

/-- The type of the `handler` field: `log_level` and the answer of `send` are
passed along with `socket_fd`, `tunnel` and the `optc` tokens of `optv`. -/
abbrev Handler :=
  Nat → Int → Int → Option CStr → List CStr → Option (Int × List Event)

/-- The structure `command_t`. -/
structure command_t where
  name : CStr
  handler : Handler
  requires_tunnel : Bool

/-- The table `commands`, the closing `NULL` entry left out. -/
def commands (h : Header) : List command_t :=
  [ ⟨"add".toList, command_add_lac h.CONTROL_PIPE_REQ_LAC_ADD_MODIFY, true⟩,
    ⟨"connect".toList, command_connect_lac, true⟩,
    ⟨"disconnect".toList,
      command_disconnect_lac h.CONTROL_PIPE_REQ_LAC_DISCONNECT, true⟩,
    ⟨"remove".toList, command_remove_lac h.CONTROL_PIPE_REQ_LAC_REMOVE, true⟩,
    ⟨"add-lac".toList, command_add_lac h.CONTROL_PIPE_REQ_LAC_ADD_MODIFY, true⟩,
    ⟨"connect-lac".toList, command_connect_lac, true⟩,
    ⟨"disconnect-lac".toList,
      command_disconnect_lac h.CONTROL_PIPE_REQ_LAC_DISCONNECT, true⟩,
    ⟨"remove-lac".toList,
      command_remove_lac h.CONTROL_PIPE_REQ_LAC_REMOVE, true⟩,
    ⟨"add-lns".toList, command_add_lns h.CONTROL_PIPE_REQ_LNS_ADD_MODIFY, true⟩,
    ⟨"remove-lns".toList,
      command_remove_lns h.CONTROL_PIPE_REQ_LNS_REMOVE, true⟩,
    ⟨"status".toList, command_status_lac h.CONTROL_PIPE_REQ_LAC_STATUS, true⟩,
    ⟨"status-lns".toList,
      command_status_lns h.CONTROL_PIPE_REQ_LNS_STATUS, true⟩,
    ⟨"available".toList, command_available h.CONTROL_PIPE_REQ_AVAILABLE, false⟩ ]

/-! ## Reading the response -/

/-- What one call of `recv` answers. -/
inductive Read where
  /-- The bytes stored at the start of the array; their number is returned. -/
  | data (bytes : List Char) : Read
  /-- The peer has closed: 0 is returned. -/
  | closed : Read
  /-- An error: -1 is returned. -/
  | failed : Read
  deriving DecidableEq, Repr

/-- The bytes `recv` stores in the array. -/
def Read.bytes : Read → List Char
  | Read.data bytes => bytes
  | Read.closed => []
  | Read.failed => []

/-- The value `recv` returns, which `read_result` passes on unchanged. -/
def Read.ret : Read → Int
  | Read.data bytes => bytes.length
  | Read.closed => 0
  | Read.failed => -1

/-- The array `response_buf` after `recv` has stored `bytes` at its start:
the bytes behind them stay as they were. -/
def recv_into (response_buf : List Char) (bytes : List Char) : List Char :=
  bytes ++ response_buf.drop bytes.length

/-- The call `printf ("%s", response_buf)`: the bytes of the array before its
first NUL are printed; with no NUL in the array the read runs off its end,
which has no defined behaviour. -/
def printf_s (response_buf : List Char) : Option (List Char) :=
  if NUL ∈ response_buf then some (cstr response_buf) else none

/-- The `for (;;)` loop of `main` over the answers of the successive `recv`
calls; once the list is used up the peer has closed. -/
def receive_loop (fd : Int) : List Read → List Char → Option (List Event)
  | [], _ => some [Event.recv fd]
  | r :: rest, response_buf =>
    if r.ret > 0 then
      match printf_s (recv_into response_buf r.bytes) with
      | none => none
      | some text =>
        match receive_loop fd rest (recv_into response_buf r.bytes) with
        | none => none
        | some evs => some (Event.recv fd :: Event.stdout text :: evs)
    else
      some [Event.recv fd]

/-! ## The function `main` -/

/-- What the environment answers during one run. -/
structure Env where
  /-- The descriptor (or -1) returned by `socket`. -/
  socket_res : Int
  /-- The value returned by `send`. -/
  send_res : Int
  /-- The answers of the successive `recv` calls. -/
  reads : List Read
  /-- The byte found at each offset of the uninitialised `response_buf`. -/
  garbage : Nat → Char

/-- The uninitialised array `char response_buf[CONTROL_PIPE_MESSAGE_SIZE]`. -/
def response_buf (h : Header) (env : Env) : List Char :=
  (List.range h.CONTROL_PIPE_MESSAGE_SIZE).map env.garbage

/-- The test `!strncmp (s, lit, n)`. -/
def strncmp_eq (s lit : CStr) (n : Nat) : Bool := s.take n == lit.take n

/-- The test `!strcasecmp (s, name)`. -/
def strcasecmp_eq (s name : CStr) : Bool :=
  s.map Char.toLower == name.map Char.toLower

/-- The loop of `main` over the global options, on `argv[i..]`: what is left
of `argv` when the loop ends, `control_filename` and `log_level`. -/
def global_options : List CStr → Option CStr → Nat → List CStr × Option CStr × Nat
  | [], control_filename, log_level => ([], control_filename, log_level)
  | [a], control_filename, log_level =>
    if strncmp_eq a "-c".toList 2 then ([], none, log_level)
    else if strncmp_eq a "-d".toList 2 then ([], control_filename, DEBUG_LEVEL)
    else ([a], control_filename, log_level)
  | a :: f :: rest, control_filename, log_level =>
    if strncmp_eq a "-c".toList 2 then global_options rest (some f) log_level
    else if strncmp_eq a "-d".toList 2 then
      global_options (f :: rest) control_filename DEBUG_LEVEL
    else (a :: f :: rest, control_filename, log_level)

/-- The second half of `main`, from `socket` on: the handler is called on the
socket, a negative result ends the run at once, otherwise the response is read
and the socket closed. -/
def main_exchange (h : Header) (env : Env) (log_level : Nat)
    (command : command_t) (tunnel_name : Option CStr) (optv : List CStr) :
    Option (Int × List Event) :=
  match command.handler log_level env.send_res env.socket_res tunnel_name optv with
  | none => none
  | some (command_res, evs) =>
    if command_res < 0 then
      some (-1, [Event.socket, Event.connect env.socket_res] ++ evs ++
        print_error log_level ERROR_LEVEL "error: command parse error\n".toList)
    else
      match receive_loop env.socket_res env.reads (response_buf h env) with
      | none => none
      | some revs =>
        some (0, [Event.socket, Event.connect env.socket_res] ++ evs ++ revs ++
          [Event.close env.socket_res])

/-- The part of `main` that follows the global options: command lookup and
tunnel name, then the exchange. `args` is `argv[i..]`. -/
def main_command (h : Header) (env : Env) (log_level : Nat)
    (control_filename : Option CStr) (args : List CStr) :
    Option (Int × List Event) :=
  match args with
  | [] =>
    some (-1, print_error log_level ERROR_LEVEL
      "error: command not specified\n".toList ++ [Event.usage])
  | a :: rest =>
    let evs0 := print_error log_level DEBUG_LEVEL
      ("set control filename to ".toList ++
        control_filename.getD h.CONTROL_PIPE ++ "\n".toList)
    match (commands h).find? (fun c => strcasecmp_eq a c.name) with
    | none =>
      some (-1, evs0 ++ print_error log_level ERROR_LEVEL
        ("error: no such command ".toList ++ a ++ "\n".toList))
    | some command =>
      let evs1 := evs0 ++ print_error log_level DEBUG_LEVEL
        ("get command ".toList ++ command.name ++ "\n".toList)
      if command.requires_tunnel then
        match rest with
        | [] =>
          some (-1, evs1 ++ print_error log_level ERROR_LEVEL
            "error: tunnel name not specified\n".toList ++ [Event.usage])
        | tunnel_name :: optv =>
          if ' ' ∈ tunnel_name then
            some (-1, evs1 ++ print_error log_level ERROR_LEVEL
              "error: tunnel name shouldn't include spaces\n".toList ++
              [Event.usage])
          else
            (main_exchange h env log_level command (some tunnel_name) optv).map
              (fun r => (r.1, evs1 ++ r.2))
      else
        (main_exchange h env log_level command none rest).map
          (fun r => (r.1, evs1 ++ r.2))

/-- The function `main` on `argv` (with `argc` its length): the returned
`int` and the events of the run. With `argc` at 0 the test of `argv[1]` reads
behind the end of `argv`. -/
def main (h : Header) (env : Env) (argv : List CStr) : Option (Int × List Event) :=
  match argv with
  | [] => none
  | _ :: args =>
    if (args.head?.map (fun a => strncmp_eq a "--help".toList 6)) = some true then
      some (0, [Event.usage, Event.help])
    else
      match global_options args none ERROR_LEVEL with
      | (args1, control_filename, log_level) =>
        main_command h env log_level control_filename args1

/-- Sample values for the constants of `l2tp.h`, for the runs on concrete
inputs below. -/
def l2tp_h : Header :=
  { CONTROL_PIPE := "/var/run/xl2tpd/l2tp-control".toList
    CONTROL_PIPE_MESSAGE_SIZE := 1024
    CONTROL_PIPE_REQ_LAC_ADD_MODIFY := 'a'
    CONTROL_PIPE_REQ_LAC_DISCONNECT := 'd'
    CONTROL_PIPE_REQ_LAC_REMOVE := 'r'
    CONTROL_PIPE_REQ_LNS_ADD_MODIFY := 'z'
    CONTROL_PIPE_REQ_LNS_STATUS := 'y'
    CONTROL_PIPE_REQ_LAC_STATUS := 's'
    CONTROL_PIPE_REQ_AVAILABLE := 'v'
    CONTROL_PIPE_REQ_LNS_REMOVE := 'w' }

/-- An environment: descriptor 3, `send` answering `send_res`, the given
`recv` answers, and an array `response_buf` that happens to hold zero bytes. -/
def env_of (send_res : Int) (reads : List Read) : Env :=
  { socket_res := 3, send_res := send_res, reads := reads, garbage := fun _ => NUL }

/-- A token that is a complete pair: it has an `=`, and its first `=` is not
its last character. -/
def complete_pair (tok : CStr) : Bool :=
  match strstr_eq tok with
  | some eqv => eqv + 1 != tok.length
  | none => false

/-- The bytes handed to `send`, call by call. -/
def sent : List Event → List (List Char)
  | [] => []
  | Event.send _ bytes :: evs => bytes :: sent evs
  | _ :: evs => sent evs

/-- The texts written to standard output, call by call. -/
def printed : List Event → List (List Char)
  | [] => []
  | Event.stdout text :: evs => text :: printed evs
  | _ :: evs => printed evs

/-- The number of `close` calls on the descriptor `fd`. -/
def closes (fd : Int) (evs : List Event) : Nat := evs.count (Event.close fd)

/-! ## Scratch buffers -/

/-- An array without NUL before its terminator reads as itself. -/
theorem cstr_of_not_mem (s : List Char) (h : NUL ∉ s) : cstr s = s := by
  unfold cstr
  rw [List.takeWhile_eq_self_iff]
  intro c hc
  have : c ≠ NUL := fun e => h (e ▸ hc)
  simpa using this

/-- Reading up to the first NUL never lengthens. -/
theorem cstr_length_le (s : List Char) : (cstr s).length ≤ s.length := by
  unfold cstr
  exact (List.takeWhile_sublist _).length_le

/-- A C string holds no NUL. -/
theorem not_mem_cstr (s : List Char) : NUL ∉ cstr s := by
  unfold cstr
  intro h
  have := List.mem_takeWhile_imp h
  simp at this

/-- An output that fits the array with its terminator is stored. -/
theorem sprintf_of_fits (s : List Char) (h : s.length + 1 ≤ BUF_SIZE) :
    sprintf s = some (cstr s) := by
  simp [sprintf, h]

/-- The call `sprintf (buf, ";")`. -/
theorem sprintf_semicolon : sprintf [';'] = some [';'] := by decide

/-- The call `sprintf (buf, " ")`. -/
theorem sprintf_space : sprintf [' '] = some [' '] := by decide

/-- Whatever `send` answers, `write_request` hands it the C string of the
formatted output, once, and returns 0. -/
theorem write_request_of_fits (send_res socket_fd : Int) (out : List Char)
    (h : out.length + 1 ≤ BUF_SIZE) :
    ∃ evs, write_request send_res socket_fd out = some (0, evs) ∧
      sent evs = [cstr out] := by
  unfold write_request
  rw [sprintf_of_fits out h]
  by_cases hs : send_res < 0
  · simp only [hs, if_true]
    exact ⟨_, rfl, rfl⟩
  · simp only [hs, if_false]
    exact ⟨_, rfl, rfl⟩

/-- With every token fitting the array, the loop of `command_add` runs to its
end and leaves a C string that fits the array. -/
theorem add_loop_of_fits (optv : List CStr) (buf : CStr) (wait_key : Bool)
    (hbuf : buf.length + 1 ≤ BUF_SIZE) (hnul : NUL ∉ buf)
    (htok : ∀ tok ∈ optv, tok.length + 1 ≤ BUF_SIZE) :
    ∃ buf1 wait_key1, add_loop optv (buf, wait_key) = some (buf1, wait_key1) ∧
      buf1.length + 1 ≤ BUF_SIZE ∧ NUL ∉ buf1 := by
  induction optv generalizing buf wait_key with
  | nil => exact ⟨buf, wait_key, rfl, hbuf, hnul⟩
  | cons tok rest ih =>
    have hfit : tok.length + 1 ≤ BUF_SIZE := htok tok (List.mem_cons_self _ _)
    have hrest : ∀ tok1 ∈ rest, tok1.length + 1 ≤ BUF_SIZE :=
      fun tok1 h1 => htok tok1 (List.mem_cons_of_mem _ h1)
    have hc : (cstr tok).length + 1 ≤ BUF_SIZE :=
      Nat.le_trans (Nat.succ_le_succ (cstr_length_le tok)) hfit
    have h1 : ([';'] : List Char).length + 1 ≤ BUF_SIZE := by decide
    have h2 : ([' '] : List Char).length + 1 ≤ BUF_SIZE := by decide
    have n1 : NUL ∉ ([';'] : List Char) := by decide
    have n2 : NUL ∉ ([' '] : List Char) := by decide
    simp only [add_loop, sprintf_of_fits tok hfit, sprintf_semicolon, sprintf_space]
    cases wait_key with
    | false => simpa using ih [';'] true h1 n1 hrest
    | true =>
      cases hq : strstr_eq tok with
      | none => simpa using ih [' '] true h2 n2 hrest
      | some eqv =>
        by_cases hl : eqv + 1 = tok.length
        · simpa [hl] using ih (cstr tok) false hc (not_mem_cstr tok) hrest
        · simpa [hl] using ih [';'] true h1 n1 hrest

/-- The loop of `command_add` over a list of tokens followed by more tokens
is the loop over the first list, then the loop over the rest from the state
reached. -/
theorem add_loop_append (optv more : List CStr) (st : CStr × Bool) :
    add_loop (optv ++ more) st = (add_loop optv st).bind (add_loop more) := by
  induction optv generalizing st with
  | nil => rfl
  | cons tok rest ih =>
    obtain ⟨buf, wait_key⟩ := st
    simp only [List.cons_append, add_loop, sprintf_semicolon, sprintf_space]
    cases sprintf tok with
    | none => rfl
    | some buf1 =>
      cases wait_key with
      | false => simpa using ih _
      | true =>
        cases strstr_eq tok with
        | none => simpa using ih _
        | some eqv =>
          by_cases hl : eqv + 1 = tok.length
          · simpa [hl] using ih _
          · simpa [hl] using ih _

/-- One turn of the loop of `command_add` does not depend on what `buf` held
before: the first `sprintf` of the turn replaces it. -/
theorem add_loop_single_forgets (tok : CStr) (buf buf1 : CStr) (wait_key : Bool) :
    add_loop [tok] (buf, wait_key) = add_loop [tok] (buf1, wait_key) := by
  simp only [add_loop]

/-- Over complete pairs the loop of `command_add` ends with `wait_key` still
1 and, once it has seen a token, with `;` alone in `buf`. -/
theorem add_loop_complete_pairs (optv : List CStr) (buf : CStr)
    (htok : ∀ tok ∈ optv, tok.length + 1 ≤ BUF_SIZE)
    (hpair : ∀ tok ∈ optv, complete_pair tok = true) :
    add_loop optv (buf, true)
      = some (if optv = [] then buf else [';'], true) := by
  induction optv generalizing buf with
  | nil => rfl
  | cons tok rest ih =>
    have hfit : tok.length + 1 ≤ BUF_SIZE := htok tok (List.mem_cons_self _ _)
    have hp := hpair tok (List.mem_cons_self _ _)
    unfold complete_pair at hp
    cases he : strstr_eq tok with
    | none => simp [he] at hp
    | some eqv =>
    have hl : eqv + 1 ≠ tok.length := by simpa [he] using hp
    have hrest := ih [';'] (fun tok1 h1 => htok tok1 (List.mem_cons_of_mem _ h1))
      (fun tok1 h1 => hpair tok1 (List.mem_cons_of_mem _ h1))
    simp only [add_loop, sprintf_of_fits tok hfit, sprintf_semicolon, he, if_true,
      hrest]
    by_cases hr : rest = []
    · simp [hr, hl]
    · simp [hr, hl]

/-- For every non-empty list of complete pairs, the request `command_add`
hands to `send` is the single byte `;`. -/
theorem command_add_complete_pairs (log_level : Nat) (send_res socket_fd : Int)
    (t : CStr) (optv : List CStr) (reqopt : Char)
    (hne : optv ≠ []) (ht : t.length ≤ 1020)
    (htok : ∀ tok ∈ optv, tok.length + 1 ≤ BUF_SIZE)
    (hpair : ∀ tok ∈ optv, complete_pair tok = true) :
    (command_add log_level send_res socket_fd (some t) optv reqopt).map
      (fun r => (r.1, sent r.2)) = some (0, [[';']]) := by
  have hfit : (reqopt :: ' ' :: t ++ [' ']).length + 1 ≤ BUF_SIZE := by
    simp only [List.length_cons, List.length_append, List.length_nil, BUF_SIZE]
    omega
  have hpos : ¬ optv.length ≤ 0 := by
    cases optv with
    | nil => exact absurd rfl hne
    | cons a l => simp
  obtain ⟨evs, he, hs⟩ :=
    write_request_of_fits send_res socket_fd [';'] (by decide)
  have hc : cstr [';'] = [';'] := by decide
  simp only [command_add, hpos, if_false, sprintf_of_fits _ hfit,
    add_loop_complete_pairs optv _ htok hpair, hne, he, Option.map_some', hs, hc]

/-- The function `write_request` has no result other than 0. -/
theorem write_request_returns_zero (send_res socket_fd : Int) (out : List Char)
    (r : Int) (evs : List Event)
    (h : write_request send_res socket_fd out = some (r, evs)) : r = 0 := by
  unfold write_request at h
  cases hs : sprintf out with
  | none => simp [hs] at h
  | some buf =>
    simp only [hs] at h
    split at h
    · simp only [Option.some.injEq, Prod.mk.injEq] at h
      exact h.1.symm
    · simp only [Option.some.injEq, Prod.mk.injEq] at h
      exact h.1.symm

/-- When the handler returns a negative result, `main` returns -1 with no
event after the handler's but the diagnostic: `close` is not called. -/
theorem main_exchange_of_negative (h : Header) (env : Env) (log_level : Nat)
    (command : command_t) (tunnel_name : Option CStr) (optv : List CStr)
    (command_res : Int) (evs : List Event)
    (hh : command.handler log_level env.send_res env.socket_res tunnel_name optv
      = some (command_res, evs))
    (hneg : command_res < 0) :
    main_exchange h env log_level command tunnel_name optv
      = some (-1, [Event.socket, Event.connect env.socket_res] ++ evs ++
          print_error log_level ERROR_LEVEL
            "error: command parse error\n".toList) := by
  simp only [main_exchange, hh, hneg, if_true]

/-- When the handler returns 0 or more and the response is read, `main`
returns 0 and `close` is its last event. -/
theorem main_exchange_of_nonnegative (h : Header) (env : Env) (log_level : Nat)
    (command : command_t) (tunnel_name : Option CStr) (optv : List CStr)
    (command_res : Int) (evs revs : List Event)
    (hh : command.handler log_level env.send_res env.socket_res tunnel_name optv
      = some (command_res, evs))
    (hpos : 0 ≤ command_res)
    (hr : receive_loop env.socket_res env.reads (response_buf h env) = some revs) :
    main_exchange h env log_level command tunnel_name optv
      = some (0, [Event.socket, Event.connect env.socket_res] ++ evs ++ revs ++
          [Event.close env.socket_res]) := by
  simp only [main_exchange, hh, Int.not_lt.mpr hpos, if_false, hr]

/-- After the answers `hello` (5 bytes) and `hi` (2 bytes), whatever
`response_buf` held before, the loop of `main` has not printed `hello` and
`hi`: if the second `printf` prints at all, it prints `hillo` and what
follows. -/
theorem receive_loop_stale_bytes (fd : Int) (response_buf : List Char) :
    (receive_loop fd
        [Read.data "hello".toList, Read.data "hi".toList, Read.closed]
        response_buf).map printed
      ≠ some ["hello".toList, "hi".toList] := by
  intro h
  have hb : recv_into (recv_into response_buf "hello".toList) "hi".toList
      = "hillo".toList ++ response_buf.drop 5 := by
    simp [recv_into]
  have hc : cstr ("hillo".toList ++ response_buf.drop 5)
      = "hillo".toList ++ cstr (response_buf.drop 5) := by
    simp [cstr, List.takeWhile_cons, NUL]
  simp only [receive_loop, Read.ret, Read.bytes, hb] at h
  cases h1 : printf_s (recv_into response_buf "hello".toList) with
  | none =>
    rw [h1] at h
    simp at h
  | some t1 =>
    cases h2 : printf_s ("hillo".toList ++ response_buf.drop 5) with
    | none =>
      rw [h1, h2] at h
      simp at h
    | some t2 =>
      have ht2 : t2 = "hillo".toList ++ cstr (response_buf.drop 5) := by
        unfold printf_s at h2
        split at h2
        · rw [← Option.some.inj h2, hc]
        · exact absurd h2 (by simp)
      rw [h1, h2] at h
      simp [printed, ht2] at h

/-- What the loop of `main` does get right: when every answer of `recv` is a
text without NUL followed by its terminating NUL, the texts are printed as
they are, in order, up to the first answer that is not positive. -/
theorem receive_loop_terminated_texts (fd : Int) (texts : List (List Char))
    (rest : List Read) (response_buf : List Char)
    (hnul : ∀ s ∈ texts, NUL ∉ s) :
    (receive_loop fd
        (texts.map (fun s => Read.data (s ++ [NUL])) ++ Read.closed :: rest)
        response_buf).map printed = some texts := by
  induction texts generalizing response_buf with
  | nil => rfl
  | cons s texts ih =>
    have hs : NUL ∉ s := hnul s (List.mem_cons_self _ _)
    have hpos : Read.ret (Read.data (s ++ [NUL])) > 0 := by
      simp only [Read.ret, List.length_append, List.length_singleton]
      omega
    have hmem : NUL ∈ recv_into response_buf (s ++ [NUL]) := by
      simp [recv_into]
    have hc : cstr (recv_into response_buf (s ++ [NUL])) = s := by
      unfold cstr recv_into
      rw [List.append_assoc, List.takeWhile_append_of_pos, List.singleton_append,
        List.takeWhile_cons_of_neg, List.append_nil]
      · simp
      · intro c hcs
        have : c ≠ NUL := fun e => hs (e ▸ hcs)
        simpa using this
    have hrest := ih (recv_into response_buf (s ++ [NUL]))
      (fun s1 h1 => hnul s1 (List.mem_cons_of_mem _ h1))
    simp only [List.map_cons, List.cons_append, receive_loop, hpos, if_true,
      Read.bytes, printf_s, hmem, hc]
    cases hl : receive_loop fd
        (texts.map (fun s => Read.data (s ++ [NUL])) ++ Read.closed :: rest)
        (recv_into response_buf (s ++ [NUL])) with
    | none => simp [hl] at hrest
    | some evs =>
      rw [hl] at hrest
      simp only [Option.map_some', Option.some.injEq] at hrest
      simp only [Option.map_some', printed, hrest]

/-! ## Claims -/

/-- C1, on the failing input: for the complete tokens `lns=192.0.2.1` and
`name=x` the request handed to `send` is the single byte `;`, the output of
the last `sprintf (buf, ";")`, not `a t lns=192.0.2.1;name=x;`. -/
theorem command_add_complete_pairs_sends_semicolon :
    command_add 1 0 3 (some "t".toList)
        ["lns=192.0.2.1".toList, "name=x".toList] 'a'
      = some (0, [Event.send 3 ";".toList]) := by
  decide

/-- C2, on the failing input: for the tokens `lns=192.0.2.1`, `ppp`,
`debug=1` the request line is `;`, without kind tag, tunnel name or the
earlier tokens, not `a t lns=192.0.2.1;ppp debug=1;`. -/
theorem command_add_mixed_sends_semicolon :
    command_add 1 0 3 (some "t".toList)
        ["lns=192.0.2.1".toList, "ppp".toList, "debug=1".toList] 'a'
      = some (0, [Event.send 3 ";".toList]) ∧
    command_add 1 0 3 (some "t".toList)
        ["lns=192.0.2.1".toList, "ppp".toList, "debug=1".toList] 'a'
      ≠ some (0, [Event.send 3 "a t lns=192.0.2.1;ppp debug=1;".toList]) := by
  decide

/-- C3, on the failing input: for the tokens `ppp`, `debug=1` the loop leaves
`;` in `buf`, not `ppp debug=1;`: the bare word and the space written after
it are overwritten by the next `sprintf`. -/
theorem add_loop_two_word_key :
    add_loop ["ppp".toList, "debug=1".toList] ("a t ".toList, true)
      = some (";".toList, true) ∧
    add_loop ["ppp".toList] ("a t ".toList, true) = some (" ".toList, true) ∧
    command_add 1 0 3 (some "t".toList) ["ppp".toList, "debug=1".toList] 'a'
      = some (0, [Event.send 3 ";".toList]) := by
  decide

/-- C4, on the failing input: for the tokens `name=`, `myname` the loop is
back at `wait_key = 1` but leaves `;` in `buf`, not `name=myname;`: key and
value are overwritten by the closing `sprintf (buf, ";")`. -/
theorem add_loop_split_value :
    add_loop ["name=".toList, "myname".toList] ("a t ".toList, true)
      = some (";".toList, true) ∧
    command_add 1 0 3 (some "t".toList) ["name=".toList, "myname".toList] 'a'
      = some (0, [Event.send 3 ";".toList]) := by
  decide

/-- C5: with an empty option list `command_add` returns -1 whatever the kind
tag and the tunnel name are, and so do `command_add_lac` and
`command_add_lns`; the only effect is the diagnostic of `print_error`, so
nothing is handed to `send`. -/
theorem command_add_empty_options (log_level : Nat) (send_res socket_fd : Int)
    (tunnel : Option CStr) (reqopt : Char) :
    command_add log_level send_res socket_fd tunnel [] reqopt
        = some (-1, print_error log_level ERROR_LEVEL
            "error: tunnel configuration expected\n".toList) ∧
      command_add_lac reqopt log_level send_res socket_fd tunnel []
        = some (-1, print_error log_level ERROR_LEVEL
            "error: tunnel configuration expected\n".toList) ∧
      command_add_lns reqopt log_level send_res socket_fd tunnel []
        = some (-1, print_error log_level ERROR_LEVEL
            "error: tunnel configuration expected\n".toList) ∧
      sent (print_error log_level ERROR_LEVEL
            "error: tunnel configuration expected\n".toList) = [] := by
  refine ⟨by simp [command_add], by simp [command_add_lac, command_add],
    by simp [command_add_lns, command_add], ?_⟩
  unfold print_error
  split <;> rfl

/-- The request of a fixed command, for a tunnel name that fits the array:
one `send` of the tag, a space and the name, and 0 returned. -/
theorem write_tag_tunnel_of_fits (tag : Char) (send_res socket_fd : Int)
    (t : CStr) (htag : tag ≠ NUL) (ht : NUL ∉ t) (hlen : t.length ≤ 1021) :
    (write_tag_tunnel tag send_res socket_fd (some t)).map
      (fun r => (r.1, sent r.2)) = some (0, [tag :: ' ' :: t]) := by
  have hfit : (tag :: ' ' :: t).length + 1 ≤ BUF_SIZE := by
    simp only [List.length_cons, BUF_SIZE]
    omega
  have hnul : NUL ∉ tag :: ' ' :: t := by
    intro h
    rcases List.mem_cons.mp h with h | h
    · exact htag h.symm
    · rcases List.mem_cons.mp h with h | h
      · exact absurd h (by decide)
      · exact ht h
  obtain ⟨evs, he, hs⟩ := write_request_of_fits send_res socket_fd _ hfit
  simp only [write_tag_tunnel, he, Option.map_some', hs, cstr_of_not_mem _ hnul]

/-- C6 (amended): for every tunnel name of at most 1021 bytes, every kind tag
other than NUL and every option list, each of `command_disconnect_lac`,
`command_remove_lac`, `command_status_lac`, `command_status_lns`,
`command_remove_lns` and `command_available` returns 0 and hands `send`
exactly the tag, one space and the tunnel name, with nothing behind the name;
the option list is ignored. -/
theorem fixed_command_request (tag : Char) (log_level : Nat)
    (send_res socket_fd : Int) (t : CStr) (optv : List CStr)
    (htag : tag ≠ NUL) (ht : NUL ∉ t) (hlen : t.length ≤ 1021) :
    (command_disconnect_lac tag log_level send_res socket_fd (some t) optv).map
        (fun r => (r.1, sent r.2)) = some (0, [tag :: ' ' :: t]) ∧
    (command_remove_lac tag log_level send_res socket_fd (some t) optv).map
        (fun r => (r.1, sent r.2)) = some (0, [tag :: ' ' :: t]) ∧
    (command_status_lac tag log_level send_res socket_fd (some t) optv).map
        (fun r => (r.1, sent r.2)) = some (0, [tag :: ' ' :: t]) ∧
    (command_status_lns tag log_level send_res socket_fd (some t) optv).map
        (fun r => (r.1, sent r.2)) = some (0, [tag :: ' ' :: t]) ∧
    (command_remove_lns tag log_level send_res socket_fd (some t) optv).map
        (fun r => (r.1, sent r.2)) = some (0, [tag :: ' ' :: t]) ∧
    (command_available tag log_level send_res socket_fd (some t) optv).map
        (fun r => (r.1, sent r.2)) = some (0, [tag :: ' ' :: t]) := by
  have h := write_tag_tunnel_of_fits tag send_res socket_fd t htag ht hlen
  exact ⟨h, h, h, h, h, h⟩

/-- C6, witness: the disconnect request for the tunnel `mytunnel`. -/
theorem fixed_command_request_witness :
    (command_disconnect_lac 'd' 1 0 3 (some "mytunnel".toList) []).map
        (fun r => (r.1, sent r.2)) = some (0, ["d mytunnel".toList]) :=
  (fixed_command_request 'd' 1 0 3 "mytunnel".toList [] (by decide) (by decide)
    (by decide)).1

/-- C6, counterexample: a tunnel name of 1022 bytes. The request with its
terminator takes 1025 bytes, `vsprintf` overruns `char buf[1024]` in
`write_request`, and the handler has no defined result. -/
theorem fixed_command_overrun :
    command_disconnect_lac 'd' 1 0 3 (some (List.replicate 1022 'x')) [] = none ∧
    (command_disconnect_lac 'd' 1 0 3 (some (List.replicate 1022 'x')) []).map
        (fun r => (r.1, sent r.2))
      ≠ some (0, ['d' :: ' ' :: List.replicate 1022 'x']) := by
  have hs : sprintf ('d' :: ' ' :: List.replicate 1022 'x') = none := by
    unfold sprintf
    rw [if_neg]
    simp only [List.length_cons, List.length_replicate, BUF_SIZE]
    omega
  have h : command_disconnect_lac 'd' 1 0 3 (some (List.replicate 1022 'x')) []
      = none := by
    simp only [command_disconnect_lac, write_tag_tunnel, write_request, hs]
  refine ⟨h, ?_⟩
  rw [h, Option.map_none']
  exact fun e => Option.noConfusion e

/-- C7 (amended): for every non-empty token list whose tokens fit the array,
and a tunnel name that fits it, `command_add` reports no encoding error,
whatever `wait_key` is when the tokens run out: it returns 0 and hands the C
string left in `buf` to `send`, once. -/
theorem command_add_nonempty (log_level : Nat) (send_res socket_fd : Int)
    (t : CStr) (optv : List CStr) (reqopt : Char)
    (hne : optv ≠ []) (ht : t.length ≤ 1020)
    (htok : ∀ tok ∈ optv, tok.length + 1 ≤ BUF_SIZE) :
    ∃ buf wait_key,
      add_loop optv (cstr (reqopt :: ' ' :: t ++ [' ']), true)
        = some (buf, wait_key) ∧
      (command_add log_level send_res socket_fd (some t) optv reqopt).map
        (fun r => (r.1, sent r.2)) = some (0, [buf]) := by
  have hfit : (reqopt :: ' ' :: t ++ [' ']).length + 1 ≤ BUF_SIZE := by
    simp only [List.length_cons, List.length_append, List.length_nil, BUF_SIZE]
    omega
  have hc : (cstr (reqopt :: ' ' :: t ++ [' '])).length + 1 ≤ BUF_SIZE :=
    Nat.le_trans (Nat.succ_le_succ (cstr_length_le _)) hfit
  obtain ⟨buf, wait_key, hloop, hlen, hnul⟩ :=
    add_loop_of_fits optv _ true hc (not_mem_cstr _) htok
  obtain ⟨evs, he, hs⟩ := write_request_of_fits send_res socket_fd buf hlen
  refine ⟨buf, wait_key, hloop, ?_⟩
  have hpos : ¬ optv.length ≤ 0 := by
    cases optv with
    | nil => exact absurd rfl hne
    | cons a l => simp
  simp only [command_add, hpos, if_false, sprintf_of_fits _ hfit, hloop, he,
    Option.map_some', hs, cstr_of_not_mem _ hnul]

/-- C7, witness: the single token `name=` leaves `wait_key` at 0, and
`command_add` returns 0 after sending. -/
theorem command_add_nonempty_witness :
    ∃ buf wait_key,
      add_loop ["name=".toList] (cstr ('a' :: ' ' :: "t".toList ++ [' ']), true)
        = some (buf, wait_key) ∧
      (command_add 1 0 3 (some "t".toList) ["name=".toList] 'a').map
        (fun r => (r.1, sent r.2)) = some (0, [buf]) :=
  command_add_nonempty 1 0 3 "t".toList ["name=".toList] 'a' (by decide)
    (by decide) (by decide)

/-- C7, counterexample: after the single token `name=` the loop ends with
`wait_key` at 0, and `command_add` returns 0, not a negative result, having
sent the incomplete pair `name=`. -/
theorem command_add_dangling_key :
    add_loop ["name=".toList] ("a t ".toList, true)
      = some ("name=".toList, false) ∧
    command_add 1 0 3 (some "t".toList) ["name=".toList] 'a'
      = some (0, [Event.send 3 "name=".toList]) := by
  decide

/-- C8, on the failing input: `send` answers -1 to the request `d t`.
`write_request` prints `send() failed` and returns 0, so does
`command_disconnect_lac`, and `main` goes on to `recv`, closes the socket and
returns 0. -/
theorem main_send_failure_not_reported :
    write_request (-1) 3 "d t".toList
      = some (0, [Event.send 3 "d t".toList,
          Event.stdout "send() failed\n".toList, Event.perror]) ∧
    main l2tp_h (env_of (-1) [Read.closed])
        ["xl2tpd-control".toList, "disconnect".toList, "t".toList]
      = some (0, [Event.socket, Event.connect 3, Event.send 3 "d t".toList,
          Event.stdout "send() failed\n".toList, Event.perror,
          Event.recv 3, Event.close 3]) := by
  decide!

/-- C9, on the failing input: `recv` answers the 5 bytes `hello`, then the 2
bytes `hi`, then 0. The second `printf ("%s", response_buf)` prints `hillo`:
the bytes `llo` left in the array by the first answer follow `hi`. -/
theorem main_prints_stale_bytes :
    main l2tp_h
        (env_of 0 [Read.data "hello".toList, Read.data "hi".toList, Read.closed])
        ["xl2tpd-control".toList, "status".toList, "t".toList]
      = some (0, [Event.socket, Event.connect 3, Event.send 3 "s t".toList,
          Event.recv 3, Event.stdout "hello".toList,
          Event.recv 3, Event.stdout "hillo".toList,
          Event.recv 3, Event.close 3]) := by
  decide!

/-- C10, on the failing input: `add t` without options. The socket is
opened, `command_add` returns -1, and `main` returns -1 at once: no `close`
is among the events of the run. -/
theorem main_encoding_failure_no_close :
    main l2tp_h (env_of 0 [])
        ["xl2tpd-control".toList, "add".toList, "t".toList]
      = some (-1, [Event.socket, Event.connect 3,
          Event.stderr "error: tunnel configuration expected\n".toList,
          Event.stderr "error: command parse error\n".toList]) ∧
    (main l2tp_h (env_of 0 [])
        ["xl2tpd-control".toList, "add".toList, "t".toList]).map
      (fun r => closes 3 r.2) = some 0 := by
  decide!

end Xl2tpd
